import Mathlib

/-!
A shallow embedding of the model-resolution and live-bridge layer of the
`clm-pol-gen` repository (files `backends/__init__.py` and
`backends/slurk_api.py`), with theorems checking the specification's claims
about it.

Python values that may appear as attribute values or dictionary values are
modelled by `PyVal`; Python `None` is `PyVal.pynone`.  Python dictionaries
are association lists with unique keys kept in insertion order; because the
code mutates dictionaries in place and stores references to them
(`ModelSpec.opts`), dictionaries live in an explicit heap `Heap` of
reference-indexed cells, and every operation that touches a dictionary
threads the heap.  Machine floats only ever hold literal constants here
(`0.0`), so temperatures are carried as exact `Rat` payloads inside `PyVal`.
-/

/-- A Python runtime value as used by the spec/dict layer: strings, numbers
(`temperature` values), booleans, `None`, or some other opaque object. -/
inductive PyVal where
  | str : String → PyVal
  | num : Rat → PyVal
  | bool : Bool → PyVal
  | pynone : PyVal
  | obj : Nat → PyVal
deriving DecidableEq, Repr

/-- Python `str()` rendering, used where the code interpolates a value into
an f-string or a module name. -/
def pyStr : PyVal → String
  | .str s => s
  | .num q => reprStr q
  | .bool b => if b then "True" else "False"
  | .pynone => "None"
  | .obj n => "<object " ++ toString n ++ ">"

/-- A Python dict with string keys: an insertion-ordered association list.
Real dicts never repeat a key; `DictWF` states that. -/
abbrev Dict := List (String × PyVal)

/-- Keys of a well-formed dict are pairwise distinct. -/
def DictWF (d : Dict) : Prop := (d.map Prod.fst).Nodup

/-- `d[key]` lookup (`key in d` is `(dlookup d key).isSome`). -/
def dlookup : Dict → String → Option PyVal
  | [], _ => Option.none
  | (k, v) :: rest, key => if k = key then some v else dlookup rest key

/-- `d[key] = v`: replace in place if present (keeping position), else append. -/
def dinsert : Dict → String → PyVal → Dict
  | [], key, v => [(key, v)]
  | (k, w) :: rest, key, v =>
    if k = key then (key, v) :: rest else (k, w) :: dinsert rest key v

/-- `d.update(src)`: assign each of `src`'s entries into `d`, in order. -/
def dupdate : Dict → Dict → Dict
  | d, [] => d
  | d, (k, v) :: rest => dupdate (dinsert d k v) rest

/-- `d.pop(key, ...)`'s removal effect: drop the (first) entry at `key`. -/
def dremove : Dict → String → Dict
  | [], _ => []
  | (k, v) :: rest, key => if k = key then rest else (k, v) :: dremove rest key

/-- Python `repr` of a dict, for the f-string in `from_dict`'s error. -/
def pyReprDict (d : Dict) : String :=
  "\x7b" ++ String.intercalate ", "
    (d.map (fun kv => "\x27" ++ kv.1 ++ "\x27: " ++ pyStr kv.2)) ++ "\x7d"

/-- The heap of live dictionary objects: cell `r` holds `data r`; references
`≥ next` are unallocated.  `ModelSpec.opts` is a reference into this heap,
which is what lets the embedding state aliasing and in-place mutation. -/
structure Heap where
  data : Nat → Dict
  next : Nat

def Heap.get (h : Heap) (r : Nat) : Dict := h.data r

def Heap.set (h : Heap) (r : Nat) (d : Dict) : Heap :=
  ⟨fun x => if x = r then d else h.data x, h.next⟩

/-- Allocate a fresh dict object (`dict()`, `.copy()`). -/
def Heap.alloc (h : Heap) (d : Dict) : Nat × Heap :=
  (h.next, ⟨fun x => if x = h.next then d else h.data x, h.next + 1⟩)

/-- A Python exception, carrying its message. -/
inductive PyErr where
  | valueError (msg : String)
  | fileNotFoundError (msg : String)
  | lookupError (msg : String)
  | indexError (msg : String)
  | runtimeError (msg : String)
deriving DecidableEq, Repr

/-- `backends.ModelSpec`: attribute values are Python values (`pynone` is
Python `None`, the "unset" marker); `opts` is a reference to a dict object
in the heap (the attribute `opts` of the Python object). -/
structure ModelSpec where
  model_name : PyVal
  backend : PyVal
  model_id : PyVal
  temperature : PyVal
  optsRef : Nat
deriving DecidableEq, Repr

def ModelSpec.PROGRAMMATIC_SPECS : List PyVal :=
  [.str "mock", .str "dry_run", .str "programmatic", .str "custom", .str "_slurk_response"]

def ModelSpec.HUMAN_SPECS : List PyVal := [.str "human", .str "terminal"]

def ModelSpec.has_temperature (s : ModelSpec) : Bool :=
  decide (s.temperature ≠ PyVal.pynone)

def ModelSpec.has_backend (s : ModelSpec) : Bool :=
  decide (s.backend ≠ PyVal.pynone)

def ModelSpec.has_model_id (s : ModelSpec) : Bool :=
  decide (s.model_id ≠ PyVal.pynone)

def ModelSpec.is_programmatic (s : ModelSpec) : Bool :=
  decide (s.model_name ∈ ModelSpec.PROGRAMMATIC_SPECS)

def ModelSpec.is_human (s : ModelSpec) : Bool :=
  decide (s.model_name ∈ ModelSpec.HUMAN_SPECS)

/-- `ModelSpec.update(self, other)`: keep each of `self`'s fields that is
already specified, fill the unspecified ones from `other`; for options,
copy `other.opts` into a fresh dict object, overlay `self.opts` entry by
entry ("keep ours"), and rebind `self.opts` to that fresh object.  Returns
the mutated `self` and the heap after the copy's allocation. -/
def ModelSpec.update (self other : ModelSpec) (h : Heap) : ModelSpec × Heap :=
  let self1 : ModelSpec :=
    { self with
      backend := if self.has_backend then self.backend else other.backend,
      model_id := if self.has_model_id then self.model_id else other.model_id,
      temperature := if self.has_temperature then self.temperature else other.temperature }
  let other_opts := dupdate (h.get other.optsRef) (h.get self.optsRef)
  let (r, h1) := h.alloc other_opts
  ({ self1 with optsRef := r }, h1)

/-- `ModelSpec.matches(self, other)`: names must be equal; the backends are
compared only when `self` specifies one. -/
def ModelSpec.matches (self other : ModelSpec) : Bool :=
  if self.model_name ≠ other.model_name then false
  else if self.has_backend then
    if self.backend ≠ other.backend then false else true
  else true

/-- `ModelSpec.from_name(model_name)`: a spec with only the name set and a
fresh empty options dict (`opts = dict()` in `__init__`). -/
def ModelSpec.from_name (model_name : PyVal) (h : Heap) :
    Except PyErr (ModelSpec × Heap) :=
  if model_name = PyVal.pynone then
    .error (.valueError "Cannot create ModelSpec because model_name is None (but required)")
  else
    let (r, h1) := h.alloc []
    .ok (⟨model_name, .pynone, .pynone, .pynone, r⟩, h1)

/-- `ModelSpec.from_dict(spec)`: `spec` is (a reference `r` to) the caller's
raw mapping.  The recognized keys are popped out of that very dict object,
and the object itself — not a copy — becomes the new spec's `opts`. -/
def ModelSpec.from_dict (r : Nat) (h : Heap) : Except PyErr (ModelSpec × Heap) :=
  let spec := h.get r
  match dlookup spec "model_name" with
  | Option.none =>
    .error (.valueError ("Missing \x27model_name\x27 in model spec: " ++ pyReprDict spec))
  | some nameVal =>
    let d1 := dremove spec "model_name"
    let h1 := h.set r d1
    match ModelSpec.from_name nameVal h1 with
    | .error e => .error e
    | .ok (ms, h2) =>
      let backendV := (dlookup d1 "backend").getD .pynone
      let d2 := dremove d1 "backend"
      let model_idV := (dlookup d2 "model_id").getD .pynone
      let d3 := dremove d2 "model_id"
      let temperatureV := (dlookup d3 "temperature").getD .pynone
      let d4 := dremove d3 "temperature"
      let h3 := h2.set r d4
      .ok ({ ms with
             backend := backendV,
             model_id := model_idV,
             temperature := temperatureV,
             optsRef := r }, h3)

/-- `Backend.__init__(self, model_spec)`: record the spec, and fill the
remaining defaults in place (`temperature := 0.0` when unset, then
`model_id := model_name` when unset).  Every concrete backend constructor
reached through resolution delegates to this via `super().__init__`. -/
def Backend.init (spec : ModelSpec) : ModelSpec :=
  let s1 := if spec.has_temperature then spec else { spec with temperature := .num 0 }
  if s1.has_model_id then s1 else { s1 with model_id := s1.model_name }

/-- A constructed `Backend` instance: the class that was instantiated and
the (mutated) model spec it holds. -/
structure BackendInst where
  cls : String
  model_spec : ModelSpec
deriving DecidableEq, Repr

/-- `_backend_registry`: backend value → discovered class, in insertion
order.  Keys are the Python values stored in `ModelSpec.backend`. -/
abbrev BackendTable := List (PyVal × String)

def tlookup : BackendTable → PyVal → Option String
  | [], _ => Option.none
  | (k, v) :: rest, key => if k = key then some v else tlookup rest key

/-- The discovery environment abstracts the filesystem and `inspect`: for a
backend value `b`, `none` means no file `backends/<str(b)>_api.py` exists;
`some members` means the module imports and `members` are the names of its
`Backend` subclasses found by `inspect.getmembers(module, is_backend)`. -/
abbrev DiscEnv := PyVal → Option (List String)

/-- The not-found error message of `_register_backend` (the absolute
`project_root` prefix of `backend_path` is abstracted away). -/
def noModuleMsg (backend_name : PyVal) : String :=
  "The file \x27backends/" ++ pyStr backend_name ++
    ("_api.py\x27 does not exist. Create such a backend file or check the backend_name \x27" ++
     pyStr backend_name ++ "\x27.")

/-- The zero-subclasses error message of `_register_backend`. -/
def noBackendDefinedMsg (backend_name : PyVal) : String :=
  "There is no Backend defined in " ++ pyStr backend_name ++
    ("_api. Create such a class and try again or check the backend_name \x27" ++
     pyStr backend_name ++ "\x27.")

/-- The ambiguity error message of `_register_backend`. -/
def ambiguousBackendMsg (backend_name : PyVal) : String :=
  "There is more than one Backend defined in " ++ pyStr backend_name ++ "_api."

/-- `_register_backend(backend_name)`: check the module file, import it,
and demand exactly one `Backend` subclass; on success store the class under
the name. -/
def _register_backend (env : DiscEnv) (reg : BackendTable) (backend_name : PyVal) :
    Except PyErr (String × BackendTable) :=
  match env backend_name with
  | Option.none => .error (.fileNotFoundError (noModuleMsg backend_name))
  | some members =>
    match members with
    | [] => .error (.lookupError (noBackendDefinedMsg backend_name))
    | [cls] => .ok (cls, reg ++ [(backend_name, cls)])
    | _ => .error (.lookupError (ambiguousBackendMsg backend_name))

/-- `_load_backend_for(model_spec)`: discover the backend's class if its
name is not yet registered, then instantiate it with the spec.  The `Nat`
counts how many discovery attempts (`_register_backend` calls) were made. -/
def _load_backend_for (env : DiscEnv) (reg : BackendTable) (spec : ModelSpec) :
    (Except PyErr BackendInst) × BackendTable × Nat :=
  let backend_name := spec.backend
  match tlookup reg backend_name with
  | some cls => (.ok ⟨cls, Backend.init spec⟩, reg, 0)
  | Option.none =>
    match _register_backend env reg backend_name with
    | .error e => (.error e, reg, 1)
    | .ok (cls, reg1) => (.ok ⟨cls, Backend.init spec⟩, reg1, 1)

/-- The registry scan inside `get_backend_for`: for each registered spec in
order, if the (cumulatively mutated) spec matches it, merge it in. -/
def scanRegistry (spec : ModelSpec) (registry : List ModelSpec) (h : Heap) :
    ModelSpec × Heap :=
  match registry with
  | [] => (spec, h)
  | r :: rs =>
    if spec.matches r then
      scanRegistry (spec.update r h).1 rs (spec.update r h).2
    else
      scanRegistry spec rs h

/-- The minimal-registry-entry shape quoted by the configuration error. -/
def minimalEntryShape : String :=
  "A minimal entry is \x7b\x27model_name\x27:<name>,\x27backend\x27:<backend>\x7d."

/-- The configuration error raised when no backend could be determined. -/
def noBackendMsg (model_name : PyVal) : String :=
  "Model spec requires backend, but no entry in model registry for model_name=\x27" ++
    pyStr model_name ++
    ("\x27. Check or update the backends/model_registry.json and try again. " ++
     minimalEntryShape)

/-- `get_backend_for(model_spec)`: human and programmatic sentinels get
their no-op backends at once; otherwise the spec is merged against every
matching registry entry, must then carry a backend, and the backend is
loaded (discovering its class if needed).  Returns the outcome, the backend
table after any discovery, the number of discovery attempts, and the heap. -/
def get_backend_for (env : DiscEnv) (reg : BackendTable) (registry : List ModelSpec)
    (spec : ModelSpec) (h : Heap) :
    (Except PyErr BackendInst) × BackendTable × Nat × Heap :=
  if spec.is_human then (.ok ⟨"HumanBackend", Backend.init spec⟩, reg, 0, h)
  else if spec.is_programmatic then (.ok ⟨"ProgrammaticBackend", Backend.init spec⟩, reg, 0, h)
  else
    let spec1 := (scanRegistry spec registry h).1
    let h1 := (scanRegistry spec registry h).2
    if !spec1.has_backend then
      (.error (.valueError (noBackendMsg spec1.model_name)), reg, 0, h1)
    else
      ((_load_backend_for env reg spec1).1, (_load_backend_for env reg spec1).2.1,
       (_load_backend_for env reg spec1).2.2, h1)

/-- `slurk_api.ClemBot`'s mutable bridge state: the bot's own identity, the
single room it serves, the pending-response buffer `user_messages`, and the
synchronization signal `sync_event` (`true` = set). -/
structure ClemBot where
  user_id : Nat
  room_id : Nat
  user_messages : List String
  sync_event : Bool
deriving DecidableEq, Repr

/-- An inbound socket event: a `text_message` (room, sender identity,
message text) or a `status` event (room, sender identity). -/
inductive Event where
  | text (room : Nat) (userId : Nat) (message : String)
  | status (room : Nat) (userId : Nat)
deriving DecidableEq, Repr

def Event.room : Event → Nat
  | .text r _ _ => r
  | .status r _ => r

def Event.sender : Event → Nat
  | .text _ u _ => u
  | .status _ u => u

/-- The `text_message` handler `store_and_unblock`: drop events for other
rooms, drop the bot's own messages, otherwise buffer the message and set
the signal. -/
def store_and_unblock (bot : ClemBot) (room userId : Nat) (message : String) : ClemBot :=
  if room ≠ bot.room_id then bot
  else if userId = bot.user_id then bot
  else { bot with user_messages := bot.user_messages ++ [message], sync_event := true }

/-- The `status` handler `check_and_unblock`: drop events for other rooms,
drop the bot's own events, otherwise set the signal. -/
def check_and_unblock (bot : ClemBot) (room userId : Nat) : ClemBot :=
  if room ≠ bot.room_id then bot
  else if userId = bot.user_id then bot
  else { bot with sync_event := true }

/-- Dispatch one inbound event to its registered handler. -/
def ClemBot.deliver (bot : ClemBot) : Event → ClemBot
  | .text r u m => store_and_unblock bot r u m
  | .status r u => check_and_unblock bot r u

/-- `sync_event.wait(timeout)` over the events delivered inside the wait
window: events are handled in order until the signal is observed set; the
returned `Bool` is `wait`'s result (`false` = the timeout elapsed with the
signal still unset). -/
def deliverUntilSet (bot : ClemBot) : List Event → ClemBot × Bool
  | [] => (bot, bot.sync_event)
  | e :: es => if bot.sync_event then (bot, true) else deliverUntilSet (bot.deliver e) es

/-- A dialogue turn as passed to `wait_for_user_response`. -/
structure TurnMessage where
  role : String
  content : String
deriving DecidableEq, Repr

/-- `latest_response`: the last turn's content, or the filler when the
history is empty. -/
def latest_response (messages : List TurnMessage) : String :=
  match messages.getLast? with
  | Option.none => "Nothing has been said yet."
  | some m => m.content

/-- What one call of `wait_for_user_response` did: the text it emitted into
the room, and either the reply text with the bot state after the drain, or
the exception the call raised. -/
structure WaitOutcome where
  emitted : String
  result : Except PyErr (String × ClemBot)
deriving Repr

/-- `ClemBot.wait_for_user_response(messages)` with `events` the inbound
events delivered before the bounded timeout: emit the latest outbound
message, block on the signal (a timeout is passed over silently), clear the
signal, then take `user_messages[0]` — an `IndexError` when the buffer is
empty — and clear the buffer. -/
def wait_for_user_response (bot : ClemBot) (messages : List TurnMessage)
    (events : List Event) : WaitOutcome :=
  let emitted := latest_response messages
  let bot2 := { (deliverUntilSet bot events).1 with sync_event := false }
  match bot2.user_messages with
  | [] => ⟨emitted, .error (.indexError "list index out of range")⟩
  | m :: _ => ⟨emitted, .ok (m, { bot2 with user_messages := [] })⟩

/-- `ClemBot.wait_for_participant()` with `events` the inbound events
delivered before the bounded timeout: block on the signal; a timeout is
fatal (`RuntimeError`); on success clear the signal. -/
def wait_for_participant (bot : ClemBot) (events : List Event) : Except PyErr ClemBot :=
  if !(deliverUntilSet bot events).2 then
    .error (.runtimeError "no user joined the slurk room")
  else
    .ok { (deliverUntilSet bot events).1 with sync_event := false }

/-- An event both handlers ignore: sent by the bot's own identity, or
addressed to a different room than the bridge's. -/
def NonQualifying (bot : ClemBot) (e : Event) : Prop :=
  e.sender = bot.user_id ∨ e.room ≠ bot.room_id

instance (bot : ClemBot) (e : Event) : Decidable (NonQualifying bot e) := by
  unfold NonQualifying; infer_instance

/-! ### Dictionary lemmas -/

theorem dlookup_dinsert (d : Dict) (key : String) (v : PyVal) (q : String) :
    dlookup (dinsert d key v) q = if q = key then some v else dlookup d q := by
  induction d with
  | nil =>
    by_cases hq : q = key
    · simp [dinsert, dlookup, hq]
    · simp [dinsert, dlookup, hq, Ne.symm hq]
  | cons kv rest ih =>
    obtain ⟨k, w⟩ := kv
    by_cases hk : k = key
    · subst hk
      by_cases hq : q = k
      · subst hq; simp [dinsert, dlookup]
      · simp [dinsert, dlookup, hq, Ne.symm hq]
    · by_cases hkq : k = q
      · subst hkq
        have hq : ¬ k = key := hk
        have hq2 : ¬ k = key := hk
        simp [dinsert, dlookup, hk, ih, fun hh => hk hh]
      · simp [dinsert, dlookup, hk, hkq, ih]

theorem dlookup_eq_none_of_not_mem (d : Dict) (q : String)
    (hq : q ∉ d.map Prod.fst) : dlookup d q = Option.none := by
  induction d with
  | nil => simp [dlookup]
  | cons kv rest ih =>
    obtain ⟨k, v⟩ := kv
    rw [List.map_cons] at hq
    have h1 : ¬ k = q := fun hh => hq (by simp [hh])
    have h2 : q ∉ rest.map Prod.fst := fun hh => hq (by simp [hh])
    simp [dlookup, h1, ih h2]

theorem dlookup_dupdate (d src : Dict) (hs : DictWF src) (q : String) :
    dlookup (dupdate d src) q =
      match dlookup src q with
      | some v => some v
      | Option.none => dlookup d q := by
  induction src generalizing d with
  | nil => simp [dupdate, dlookup]
  | cons kv rest ih =>
    obtain ⟨k, v⟩ := kv
    have hknotin : k ∉ rest.map Prod.fst := by
      have h0 := hs
      rw [DictWF, List.map_cons, List.nodup_cons] at h0
      exact h0.1
    have hs2 : DictWF rest := by
      have h0 := hs
      rw [DictWF, List.map_cons, List.nodup_cons] at h0
      exact h0.2
    by_cases hq : q = k
    · subst hq
      have hnone : dlookup rest q = Option.none :=
        dlookup_eq_none_of_not_mem rest q hknotin
      rw [dupdate, ih (dinsert d q v) hs2]
      simp [hnone, dlookup, dlookup_dinsert]
    · rw [dupdate, ih (dinsert d k v) hs2]
      have hkq : ¬ k = q := fun hh => hq hh.symm
      cases hrest : dlookup rest q with
      | none => simp [dlookup, hkq, hrest, dlookup_dinsert, hq]
      | some w => simp [dlookup, hkq, hrest]

theorem dlookup_dremove (d : Dict) (key q : String) (hq : q ≠ key) :
    dlookup (dremove d key) q = dlookup d q := by
  induction d with
  | nil => simp [dremove]
  | cons kv rest ih =>
    obtain ⟨k, v⟩ := kv
    by_cases hk : k = key
    · subst hk
      have hkq : ¬ k = q := fun hh => hq hh.symm
      simp [dremove, dlookup, hkq]
    · by_cases hkq : k = q
      · simp [dremove, dlookup, hk, hkq, hq]
      · simp [dremove, dlookup, hk, hkq, ih]

/-! ### ModelSpec and registry-scan lemmas -/

theorem has_backend_false_iff (s : ModelSpec) :
    s.has_backend = false ↔ s.backend = PyVal.pynone := by
  simp [ModelSpec.has_backend]

theorem has_model_id_false_iff (s : ModelSpec) :
    s.has_model_id = false ↔ s.model_id = PyVal.pynone := by
  simp [ModelSpec.has_model_id]

theorem has_temperature_false_iff (s : ModelSpec) :
    s.has_temperature = false ↔ s.temperature = PyVal.pynone := by
  simp [ModelSpec.has_temperature]

theorem matches_true_iff (s x : ModelSpec) :
    s.matches x = true ↔
      (s.model_name = x.model_name ∧ (s.has_backend = true → s.backend = x.backend)) := by
  unfold ModelSpec.matches
  by_cases hn : s.model_name = x.model_name
  · cases hb : s.has_backend with
    | false => simp [hn, hb]
    | true =>
      by_cases hbe : s.backend = x.backend
      · simp [hn, hb, hbe]
      · simp [hn, hb, hbe]
  · simp [hn]

theorem update_model_name (s o : ModelSpec) (h : Heap) :
    (s.update o h).1.model_name = s.model_name := rfl

theorem update_backend (s o : ModelSpec) (h : Heap) :
    (s.update o h).1.backend = if s.has_backend then s.backend else o.backend := rfl

theorem update_model_id (s o : ModelSpec) (h : Heap) :
    (s.update o h).1.model_id = if s.has_model_id then s.model_id else o.model_id := rfl

theorem update_temperature (s o : ModelSpec) (h : Heap) :
    (s.update o h).1.temperature =
      if s.has_temperature then s.temperature else o.temperature := rfl

theorem matches_update_mono (s o x : ModelSpec) (h : Heap)
    (hm : (s.update o h).1.matches x = true) : s.matches x = true := by
  rw [matches_true_iff] at hm ⊢
  obtain ⟨hn, hb⟩ := hm
  rw [update_model_name] at hn
  refine ⟨hn, ?_⟩
  intro hsb
  have hub : (s.update o h).1.backend = s.backend := by
    rw [update_backend, if_pos hsb]
  have hub2 : (s.update o h).1.has_backend = true := by
    rw [ModelSpec.has_backend, hub]
    rw [ModelSpec.has_backend] at hsb
    exact hsb
  rw [← hub]
  exact hb hub2

theorem scan_nil (s : ModelSpec) (h : Heap) : scanRegistry s [] h = (s, h) := rfl

theorem scan_cons_pos (s r : ModelSpec) (rs : List ModelSpec) (h : Heap)
    (hm : s.matches r = true) :
    scanRegistry s (r :: rs) h = scanRegistry (s.update r h).1 rs (s.update r h).2 := by
  simp [scanRegistry, hm]

theorem scan_cons_neg (s r : ModelSpec) (rs : List ModelSpec) (h : Heap)
    (hm : s.matches r = false) :
    scanRegistry s (r :: rs) h = scanRegistry s rs h := by
  simp [scanRegistry, hm]

theorem scan_model_name (s : ModelSpec) (R : List ModelSpec) (h : Heap) :
    (scanRegistry s R h).1.model_name = s.model_name := by
  induction R generalizing s h with
  | nil => rfl
  | cons r rs ih =>
    by_cases hm : s.matches r = true
    · rw [scan_cons_pos s r rs h hm, ih, update_model_name]
    · rw [scan_cons_neg s r rs h (by simp [hm]), ih]

theorem scan_backend_of_set (s : ModelSpec) (R : List ModelSpec) (h : Heap)
    (hb : s.has_backend = true) :
    (scanRegistry s R h).1.backend = s.backend := by
  induction R generalizing s h with
  | nil => rfl
  | cons r rs ih =>
    by_cases hm : s.matches r = true
    · rw [scan_cons_pos s r rs h hm]
      have hub : (s.update r h).1.backend = s.backend := by
        rw [update_backend, if_pos hb]
      have hub2 : (s.update r h).1.has_backend = true := by
        rw [ModelSpec.has_backend, hub]
        rw [ModelSpec.has_backend] at hb
        exact hb
      rw [ih _ _ hub2, hub]
    · rw [scan_cons_neg s r rs h (by simp [hm]), ih _ _ hb]

theorem scan_skip (s : ModelSpec) (pre rest : List ModelSpec) (h : Heap)
    (hpre : ∀ x ∈ pre, s.matches x = false) :
    scanRegistry s (pre ++ rest) h = scanRegistry s rest h := by
  induction pre with
  | nil => rfl
  | cons p ps ih =>
    rw [List.cons_append, scan_cons_neg s p (ps ++ rest) h (hpre p (by simp))]
    exact ih (fun x hx => hpre x (by simp [hx]))

theorem scan_backend_stays_none (s : ModelSpec) (R : List ModelSpec) (h : Heap)
    (hb : s.has_backend = false)
    (hR : ∀ x ∈ R, s.matches x = true → x.has_backend = false) :
    (scanRegistry s R h).1.has_backend = false := by
  induction R generalizing s h with
  | nil => exact hb
  | cons r rs ih =>
    by_cases hm : s.matches r = true
    · rw [scan_cons_pos s r rs h hm]
      have hb1 : (s.update r h).1.has_backend = false := by
        rw [has_backend_false_iff, update_backend, if_neg (by simp [hb])]
        exact (has_backend_false_iff r).mp (hR r (by simp) hm)
      exact ih _ _ hb1 (fun x hx hmx =>
        hR x (by simp [hx]) (matches_update_mono s r x h hmx))
    · rw [scan_cons_neg s r rs h (by simp [hm])]
      exact ih _ _ hb (fun x hx hmx => hR x (by simp [hx]) hmx)

theorem scan_model_id_stays_none (s : ModelSpec) (R : List ModelSpec) (h : Heap)
    (hb : s.has_model_id = false)
    (hR : ∀ x ∈ R, s.matches x = true → x.has_model_id = false) :
    (scanRegistry s R h).1.has_model_id = false := by
  induction R generalizing s h with
  | nil => exact hb
  | cons r rs ih =>
    by_cases hm : s.matches r = true
    · rw [scan_cons_pos s r rs h hm]
      have hb1 : (s.update r h).1.has_model_id = false := by
        rw [has_model_id_false_iff, update_model_id, if_neg (by simp [hb])]
        exact (has_model_id_false_iff r).mp (hR r (by simp) hm)
      exact ih _ _ hb1 (fun x hx hmx =>
        hR x (by simp [hx]) (matches_update_mono s r x h hmx))
    · rw [scan_cons_neg s r rs h (by simp [hm])]
      exact ih _ _ hb (fun x hx hmx => hR x (by simp [hx]) hmx)

theorem scan_temperature_stays_none (s : ModelSpec) (R : List ModelSpec) (h : Heap)
    (hb : s.has_temperature = false)
    (hR : ∀ x ∈ R, s.matches x = true → x.has_temperature = false) :
    (scanRegistry s R h).1.has_temperature = false := by
  induction R generalizing s h with
  | nil => exact hb
  | cons r rs ih =>
    by_cases hm : s.matches r = true
    · rw [scan_cons_pos s r rs h hm]
      have hb1 : (s.update r h).1.has_temperature = false := by
        rw [has_temperature_false_iff, update_temperature, if_neg (by simp [hb])]
        exact (has_temperature_false_iff r).mp (hR r (by simp) hm)
      exact ih _ _ hb1 (fun x hx hmx =>
        hR x (by simp [hx]) (matches_update_mono s r x h hmx))
    · rw [scan_cons_neg s r rs h (by simp [hm])]
      exact ih _ _ hb (fun x hx hmx => hR x (by simp [hx]) hmx)

/-! ### Bridge lemmas -/

theorem deliver_nonqual (bot : ClemBot) (e : Event) (hq : NonQualifying bot e) :
    bot.deliver e = bot := by
  cases e with
  | text r u m =>
    rcases hq with hu | hr
    · simp only [Event.sender] at hu
      by_cases hrr : r = bot.room_id
      · simp [ClemBot.deliver, store_and_unblock, hrr, hu]
      · simp [ClemBot.deliver, store_and_unblock, hrr]
    · simp only [Event.room] at hr
      simp [ClemBot.deliver, store_and_unblock, hr]
  | status r u =>
    rcases hq with hu | hr
    · simp only [Event.sender] at hu
      by_cases hrr : r = bot.room_id
      · simp [ClemBot.deliver, check_and_unblock, hrr, hu]
      · simp [ClemBot.deliver, check_and_unblock, hrr]
    · simp only [Event.room] at hr
      simp [ClemBot.deliver, check_and_unblock, hr]

theorem deliver_qual_sets (bot : ClemBot) (e : Event)
    (hr : e.room = bot.room_id) (hu : e.sender ≠ bot.user_id) :
    (bot.deliver e).sync_event = true := by
  cases e with
  | text r u m =>
    simp only [Event.room] at hr
    simp only [Event.sender] at hu
    simp [ClemBot.deliver, store_and_unblock, hr, hu]
  | status r u =>
    simp only [Event.room] at hr
    simp only [Event.sender] at hu
    simp [ClemBot.deliver, check_and_unblock, hr, hu]

theorem deliver_eq_or_sets (bot : ClemBot) (e : Event) :
    bot.deliver e = bot ∨ (bot.deliver e).sync_event = true := by
  by_cases h1 : e.room = bot.room_id
  · by_cases h2 : e.sender = bot.user_id
    · exact Or.inl (deliver_nonqual bot e (Or.inl h2))
    · exact Or.inr (deliver_qual_sets bot e h1 h2)
  · exact Or.inl (deliver_nonqual bot e (Or.inr h1))

theorem deliverUntilSet_of_set (bot : ClemBot) (es : List Event)
    (hb : bot.sync_event = true) : deliverUntilSet bot es = (bot, true) := by
  cases es with
  | nil => simp [deliverUntilSet, hb]
  | cons e es => simp [deliverUntilSet, hb]

theorem deliverUntilSet_timeout (bot : ClemBot) (es : List Event)
    (hf : (deliverUntilSet bot es).2 = false) :
    (deliverUntilSet bot es).1 = bot ∧ bot.sync_event = false := by
  induction es generalizing bot with
  | nil =>
    simp only [deliverUntilSet] at hf ⊢
    exact ⟨trivial, hf⟩
  | cons e es ih =>
    by_cases hb : bot.sync_event = true
    · rw [deliverUntilSet_of_set bot (e :: es) hb] at hf
      simp at hf
    · have hb' : bot.sync_event = false := by simp at hb; exact hb
      rw [deliverUntilSet, if_neg (by simp [hb'])] at hf ⊢
      obtain ⟨h1, h2⟩ := ih (bot.deliver e) hf
      rcases deliver_eq_or_sets bot e with he | he
      · rw [he] at h1 ⊢
        exact ⟨h1, hb'⟩
      · rw [he] at h2
        simp at h2

theorem deliverUntilSet_all_nonqual (bot : ClemBot) (es : List Event)
    (hq : ∀ e ∈ es, NonQualifying bot e) :
    deliverUntilSet bot es = (bot, bot.sync_event) := by
  induction es with
  | nil => rfl
  | cons e es ih =>
    by_cases hb : bot.sync_event = true
    · rw [deliverUntilSet_of_set bot (e :: es) hb, hb]
    · have hb' : bot.sync_event = false := by simp at hb; exact hb
      rw [deliverUntilSet, if_neg (by simp [hb']),
        deliver_nonqual bot e (hq e (by simp))]
      exact ih (fun x hx => hq x (by simp [hx]))

theorem deliverUntilSet_append_nonqual (bot : ClemBot) (es1 rest : List Event)
    (hb : bot.sync_event = false) (hq : ∀ e ∈ es1, NonQualifying bot e) :
    deliverUntilSet bot (es1 ++ rest) = deliverUntilSet bot rest := by
  induction es1 with
  | nil => rfl
  | cons e es ih =>
    rw [List.cons_append, deliverUntilSet, if_neg (by simp [hb]),
      deliver_nonqual bot e (hq e (by simp))]
    exact ih (fun x hx => hq x (by simp [hx]))

theorem tlookup_append_right (reg : BackendTable) (b : PyVal) (c : String)
    (hb : tlookup reg b = Option.none) : tlookup (reg ++ [(b, c)]) b = some c := by
  induction reg with
  | nil => simp [tlookup]
  | cons kv rest ih =>
    obtain ⟨k, v⟩ := kv
    by_cases hk : k = b
    · simp [tlookup, hk] at hb
    · rw [List.cons_append, tlookup, if_neg hk]
      rw [tlookup, if_neg hk] at hb
      exact ih hb

/-! ### Claim theorems -/

/-- **C1**: after `A.update(B)`, every field of `A` that was set (backend,
model_id, temperature) is unchanged, every unset field is filled from `B`,
the resulting options mapping is `B`'s options overlaid key-by-key with
`A`'s options (so every options key of `A` survives with its value), and
`B`'s options object is not mutated. -/
theorem C1_update_merge (A B : ModelSpec) (h : Heap)
    (hB : B.optsRef < h.next) (hA : DictWF (h.get A.optsRef)) :
    (A.update B h).1.model_name = A.model_name ∧
    (A.has_backend = true → (A.update B h).1.backend = A.backend) ∧
    (A.has_backend = false → (A.update B h).1.backend = B.backend) ∧
    (A.has_model_id = true → (A.update B h).1.model_id = A.model_id) ∧
    (A.has_model_id = false → (A.update B h).1.model_id = B.model_id) ∧
    (A.has_temperature = true → (A.update B h).1.temperature = A.temperature) ∧
    (A.has_temperature = false → (A.update B h).1.temperature = B.temperature) ∧
    (∀ k, dlookup ((A.update B h).2.get (A.update B h).1.optsRef) k =
        match dlookup (h.get A.optsRef) k with
        | some v => some v
        | Option.none => dlookup (h.get B.optsRef) k) ∧
    (A.update B h).2.get B.optsRef = h.get B.optsRef := by
  have hopts : (A.update B h).2.get (A.update B h).1.optsRef =
      dupdate (h.get B.optsRef) (h.get A.optsRef) := by
    simp [ModelSpec.update, Heap.alloc, Heap.get]
  refine ⟨rfl, ?_, ?_, ?_, ?_, ?_, ?_, ?_, ?_⟩
  · intro hb; rw [update_backend, if_pos hb]
  · intro hb; rw [update_backend, if_neg (by simp [hb])]
  · intro hb; rw [update_model_id, if_pos hb]
  · intro hb; rw [update_model_id, if_neg (by simp [hb])]
  · intro hb; rw [update_temperature, if_pos hb]
  · intro hb; rw [update_temperature, if_neg (by simp [hb])]
  · intro k
    rw [hopts]
    exact dlookup_dupdate (h.get B.optsRef) (h.get A.optsRef) hA k
  · have hne : B.optsRef ≠ h.next := Nat.ne_of_lt hB
    simp [ModelSpec.update, Heap.alloc, Heap.get, hne]

/-- Witness for C1 at a concrete pair of specs and a concrete heap. -/
theorem C1_update_merge_witness :
    ((⟨PyVal.str "m1", PyVal.str "bA", PyVal.pynone, PyVal.pynone, 0⟩ : ModelSpec).update
        ⟨PyVal.str "m1", PyVal.str "bB", PyVal.str "idB", PyVal.num 1, 1⟩
        ⟨fun r => if r = 0 then [("k", PyVal.str "va")] else [("k", PyVal.str "vb")], 2⟩).1.model_name
      = PyVal.str "m1" :=
  (C1_update_merge
    ⟨PyVal.str "m1", PyVal.str "bA", PyVal.pynone, PyVal.pynone, 0⟩
    ⟨PyVal.str "m1", PyVal.str "bB", PyVal.str "idB", PyVal.num 1, 1⟩
    ⟨fun r => if r = 0 then [("k", PyVal.str "va")] else [("k", PyVal.str "vb")], 2⟩
    (by decide) (by unfold DictWF Heap.get; decide)).1

/-- **C2**: `A.matches(B)` is true iff the names are equal and, when `A`'s
backend is set, the backends are also equal; `model_id`, `temperature` and
the options reference never influence the outcome. -/
theorem C2_matches_characterization (A B : ModelSpec) :
    (A.matches B = true ↔
      A.model_name = B.model_name ∧ (A.has_backend = true → A.backend = B.backend)) ∧
    (∀ mi t r mi2 t2 r2,
      ModelSpec.matches ⟨A.model_name, A.backend, mi, t, r⟩
          ⟨B.model_name, B.backend, mi2, t2, r2⟩ = A.matches B) :=
  ⟨matches_true_iff A B, fun _ _ _ _ _ _ => rfl⟩

/-- **C7**: a spec that is neither human nor programmatic, has no backend of
its own and matches no registry entry carrying a backend resolves to a
configuration error (`ValueError`) naming the missing model name and the
minimal registry entry shape, and no backend discovery is attempted. -/
theorem C7_missing_registry_entry (env : DiscEnv) (reg : BackendTable)
    (registry : List ModelSpec) (spec : ModelSpec) (h : Heap)
    (hh : spec.is_human = false) (hp : spec.is_programmatic = false)
    (hb : spec.has_backend = false)
    (hR : ∀ x ∈ registry, spec.matches x = true → x.has_backend = false) :
    (get_backend_for env reg registry spec h).1 =
      .error (.valueError (noBackendMsg spec.model_name)) ∧
    (∃ p q, noBackendMsg spec.model_name = p ++ pyStr spec.model_name ++ q) ∧
    (∃ p q, noBackendMsg spec.model_name = p ++ (q ++ minimalEntryShape)) ∧
    (get_backend_for env reg registry spec h).2.2.1 = 0 := by
  have hscan : (scanRegistry spec registry h).1.has_backend = false :=
    scan_backend_stays_none spec registry h hb hR
  have hname : (scanRegistry spec registry h).1.model_name = spec.model_name :=
    scan_model_name spec registry h
  have hmain : (get_backend_for env reg registry spec h) =
      (.error (.valueError (noBackendMsg spec.model_name)), reg, 0,
        (scanRegistry spec registry h).2) := by
    rw [get_backend_for]
    rw [if_neg (by simp [hh]), if_neg (by simp [hp])]
    simp only [hscan, Bool.not_false, if_pos, hname]
  refine ⟨by rw [hmain], ?_, ?_, by rw [hmain]⟩
  · exact ⟨"Model spec requires backend, but no entry in model registry for model_name=\x27",
      "\x27. Check or update the backends/model_registry.json and try again. " ++
        minimalEntryShape, rfl⟩
  · exact ⟨"Model spec requires backend, but no entry in model registry for model_name=\x27" ++
      pyStr spec.model_name,
      "\x27. Check or update the backends/model_registry.json and try again. ", rfl⟩

/-- Witness for C7: the model name `m404` with an empty registry. -/
theorem C7_missing_registry_entry_witness :
    (get_backend_for (fun _ => Option.none) [] []
        ⟨PyVal.str "m404", PyVal.pynone, PyVal.pynone, PyVal.pynone, 0⟩
        ⟨fun _ => [], 1⟩).1 =
      .error (.valueError (noBackendMsg (PyVal.str "m404"))) :=
  (C7_missing_registry_entry (fun _ => Option.none) [] []
    ⟨PyVal.str "m404", PyVal.pynone, PyVal.pynone, PyVal.pynone, 0⟩
    ⟨fun _ => [], 1⟩ (by decide) (by decide) (by decide) (by simp)).1

theorem has_backend_true_iff (s : ModelSpec) :
    s.has_backend = true ↔ s.backend ≠ PyVal.pynone := by
  simp [ModelSpec.has_backend]

theorem Backend_init_backend (s : ModelSpec) : (Backend.init s).backend = s.backend := by
  by_cases h1 : s.temperature = PyVal.pynone <;> by_cases h2 : s.model_id = PyVal.pynone <;>
    simp [Backend.init, ModelSpec.has_temperature, ModelSpec.has_model_id, h1, h2]

theorem Backend_init_model_name (s : ModelSpec) :
    (Backend.init s).model_name = s.model_name := by
  by_cases h1 : s.temperature = PyVal.pynone <;> by_cases h2 : s.model_id = PyVal.pynone <;>
    simp [Backend.init, ModelSpec.has_temperature, ModelSpec.has_model_id, h1, h2]

theorem Backend_init_model_id_of_none (s : ModelSpec) (hm : s.has_model_id = false) :
    (Backend.init s).model_id = s.model_name := by
  have hm2 : s.model_id = PyVal.pynone := (has_model_id_false_iff s).mp hm
  by_cases h1 : s.temperature = PyVal.pynone <;>
    simp [Backend.init, ModelSpec.has_temperature, ModelSpec.has_model_id, h1, hm2]

theorem Backend_init_temperature_of_none (s : ModelSpec) (ht : s.has_temperature = false) :
    (Backend.init s).temperature = PyVal.num 0 := by
  have ht2 : s.temperature = PyVal.pynone := (has_temperature_false_iff s).mp ht
  by_cases h2 : s.model_id = PyVal.pynone <;>
    simp [Backend.init, ModelSpec.has_temperature, ModelSpec.has_model_id, ht2, h2]

/-- **C3**: a spec that is neither human nor programmatic, whose first
matching registry entry `e` carries a backend, and for which neither the
caller nor any matching registry entry supplies a `model_id` or a
`temperature`, resolves to a Backend whose spec carries `e`'s backend
(the caller's own backend, had it set one), `model_id` equal to the
requested name, and `temperature` equal to 0.0. -/
theorem C3_registry_resolution (env : DiscEnv) (reg : BackendTable)
    (pre post : List ModelSpec) (e spec : ModelSpec) (h : Heap) (cls : String)
    (hh : spec.is_human = false) (hp : spec.is_programmatic = false)
    (hpre : ∀ x ∈ pre, spec.matches x = false)
    (he : spec.matches e = true) (heb : e.has_backend = true)
    (hmid : spec.has_model_id = false)
    (hmidR : ∀ x ∈ pre ++ e :: post, spec.matches x = true → x.has_model_id = false)
    (htmp : spec.has_temperature = false)
    (htmpR : ∀ x ∈ pre ++ e :: post, spec.matches x = true → x.has_temperature = false)
    (hcls : tlookup reg (if spec.has_backend then spec.backend else e.backend) = some cls) :
    ∃ inst : BackendInst,
      (get_backend_for env reg (pre ++ e :: post) spec h).1 = .ok inst ∧
      (spec.has_backend = false → inst.model_spec.backend = e.backend) ∧
      (spec.has_backend = true → inst.model_spec.backend = spec.backend) ∧
      inst.model_spec.model_id = spec.model_name ∧
      inst.model_spec.temperature = PyVal.num 0 := by
  have hbselne : (if spec.has_backend then spec.backend else e.backend) ≠ PyVal.pynone := by
    by_cases hsb : spec.has_backend = true
    · rw [if_pos hsb]
      exact (has_backend_true_iff spec).mp hsb
    · rw [if_neg hsb]
      exact (has_backend_true_iff e).mp heb
  have hbsel : ((spec.update e h).1).backend =
      if spec.has_backend then spec.backend else e.backend := update_backend spec e h
  have hs1set : ((spec.update e h).1).has_backend = true := by
    rw [has_backend_true_iff, hbsel]
    exact hbselne
  have hscanfull : scanRegistry spec (pre ++ e :: post) h =
      scanRegistry (spec.update e h).1 post (spec.update e h).2 := by
    rw [scan_skip spec pre (e :: post) h hpre, scan_cons_pos spec e post h he]
  have hfb : (scanRegistry spec (pre ++ e :: post) h).1.backend =
      if spec.has_backend then spec.backend else e.backend := by
    rw [hscanfull, scan_backend_of_set _ _ _ hs1set, hbsel]
  have hfbset : (scanRegistry spec (pre ++ e :: post) h).1.has_backend = true := by
    rw [has_backend_true_iff, hfb]
    exact hbselne
  have hfmid : (scanRegistry spec (pre ++ e :: post) h).1.has_model_id = false :=
    scan_model_id_stays_none spec _ h hmid hmidR
  have hftmp : (scanRegistry spec (pre ++ e :: post) h).1.has_temperature = false :=
    scan_temperature_stays_none spec _ h htmp htmpR
  have hfname : (scanRegistry spec (pre ++ e :: post) h).1.model_name = spec.model_name :=
    scan_model_name spec _ h
  have hlook : tlookup reg ((scanRegistry spec (pre ++ e :: post) h).1).backend = some cls := by
    rw [hfb]
    exact hcls
  have hloadv : _load_backend_for env reg (scanRegistry spec (pre ++ e :: post) h).1 =
      (.ok ⟨cls, Backend.init (scanRegistry spec (pre ++ e :: post) h).1⟩, reg, 0) := by
    rw [_load_backend_for]
    rw [hlook]
  have hload : (get_backend_for env reg (pre ++ e :: post) spec h).1 =
      .ok ⟨cls, Backend.init (scanRegistry spec (pre ++ e :: post) h).1⟩ := by
    rw [get_backend_for, if_neg (by simp [hh]), if_neg (by simp [hp])]
    simp only [hfbset, Bool.not_true, Bool.false_eq_true, if_false, hloadv]
  refine ⟨⟨cls, Backend.init (scanRegistry spec (pre ++ e :: post) h).1⟩, hload, ?_, ?_, ?_, ?_⟩
  · intro hsb
    show (Backend.init _).backend = e.backend
    rw [Backend_init_backend, hfb, if_neg (by simp [hsb])]
  · intro hsb
    show (Backend.init _).backend = spec.backend
    rw [Backend_init_backend, hfb, if_pos hsb]
  · show (Backend.init _).model_id = spec.model_name
    rw [Backend_init_model_id_of_none _ hfmid]
    exact hfname
  · show (Backend.init _).temperature = PyVal.num 0
    exact Backend_init_temperature_of_none _ hftmp

/-- Witness for C3: registry `[(m1 -> bX)]`, caller spec naming only `m1`,
with `bX`'s class already in the backend table. -/
theorem C3_registry_resolution_witness :
    ∃ inst : BackendInst,
      (get_backend_for (fun _ => Option.none) [(PyVal.str "bX", "XCls")]
          ([] ++ (⟨PyVal.str "m1", PyVal.str "bX", PyVal.pynone, PyVal.pynone, 1⟩ : ModelSpec) :: [])
          ⟨PyVal.str "m1", PyVal.pynone, PyVal.pynone, PyVal.pynone, 0⟩
          ⟨fun _ => [], 2⟩).1 = .ok inst ∧
      ((⟨PyVal.str "m1", PyVal.pynone, PyVal.pynone, PyVal.pynone, 0⟩ : ModelSpec).has_backend = false →
        inst.model_spec.backend =
          (⟨PyVal.str "m1", PyVal.str "bX", PyVal.pynone, PyVal.pynone, 1⟩ : ModelSpec).backend) ∧
      ((⟨PyVal.str "m1", PyVal.pynone, PyVal.pynone, PyVal.pynone, 0⟩ : ModelSpec).has_backend = true →
        inst.model_spec.backend =
          (⟨PyVal.str "m1", PyVal.pynone, PyVal.pynone, PyVal.pynone, 0⟩ : ModelSpec).backend) ∧
      inst.model_spec.model_id =
        (⟨PyVal.str "m1", PyVal.pynone, PyVal.pynone, PyVal.pynone, 0⟩ : ModelSpec).model_name ∧
      inst.model_spec.temperature = PyVal.num 0 :=
  C3_registry_resolution (fun _ => Option.none) [(PyVal.str "bX", "XCls")] [] []
    ⟨PyVal.str "m1", PyVal.str "bX", PyVal.pynone, PyVal.pynone, 1⟩
    ⟨PyVal.str "m1", PyVal.pynone, PyVal.pynone, PyVal.pynone, 0⟩
    ⟨fun _ => [], 2⟩ "XCls"
    (by decide) (by decide) (by simp) (by decide) (by decide) (by decide) (by decide)
    (by decide) (by decide) (by decide)

/-- **C5**: a backend name already in the table is resolved with no
discovery; after a successful load the name is cached, so a second request
performs no discovery; discovery of a missing module fails with a
not-found error, of a module with zero `Backend` subclasses with a lookup
error, and of one with several subclasses with an ambiguity lookup error —
each message containing the offending backend name. -/
theorem C5_discovery_memoized (env : DiscEnv) (reg : BackendTable) (spec : ModelSpec) :
    (∀ cls, tlookup reg spec.backend = some cls →
      _load_backend_for env reg spec = (.ok ⟨cls, Backend.init spec⟩, reg, 0)) ∧
    (∀ inst, (_load_backend_for env reg spec).1 = .ok inst →
      (_load_backend_for env ((_load_backend_for env reg spec).2.1) spec).2.2 = 0) ∧
    (env spec.backend = Option.none →
      _register_backend env reg spec.backend =
        .error (.fileNotFoundError (noModuleMsg spec.backend)) ∧
      ∃ p q, noModuleMsg spec.backend = p ++ pyStr spec.backend ++ q) ∧
    (env spec.backend = some [] →
      _register_backend env reg spec.backend =
        .error (.lookupError (noBackendDefinedMsg spec.backend)) ∧
      ∃ p q, noBackendDefinedMsg spec.backend = p ++ pyStr spec.backend ++ q) ∧
    (∀ c1 c2 ms, env spec.backend = some (c1 :: c2 :: ms) →
      _register_backend env reg spec.backend =
        .error (.lookupError (ambiguousBackendMsg spec.backend)) ∧
      ∃ p q, ambiguousBackendMsg spec.backend = p ++ pyStr spec.backend ++ q) := by
  refine ⟨?_, ?_, ?_, ?_, ?_⟩
  · intro cls hcls
    rw [_load_backend_for]
    rw [hcls]
  · intro inst hok
    cases hl : tlookup reg spec.backend with
    | some cls =>
      have h1 : _load_backend_for env reg spec = (.ok ⟨cls, Backend.init spec⟩, reg, 0) := by
        rw [_load_backend_for, hl]
      rw [h1, _load_backend_for, hl]
    | none =>
      cases henv : env spec.backend with
      | none =>
        rw [_load_backend_for, hl] at hok
        rw [_register_backend, henv] at hok
        simp at hok
      | some members =>
        match members with
        | [] =>
          rw [_load_backend_for, hl] at hok
          rw [_register_backend, henv] at hok
          simp at hok
        | [c] =>
          have hreg : _register_backend env reg spec.backend =
              .ok (c, reg ++ [(spec.backend, c)]) := by
            rw [_register_backend, henv]
          have h1 : _load_backend_for env reg spec =
              (.ok ⟨c, Backend.init spec⟩, reg ++ [(spec.backend, c)], 1) := by
            rw [_load_backend_for, hl, hreg]
          rw [h1]
          rw [_load_backend_for, tlookup_append_right reg spec.backend c hl]
        | c1 :: c2 :: ms =>
          rw [_load_backend_for, hl] at hok
          rw [_register_backend, henv] at hok
          simp at hok
  · intro henv
    refine ⟨by rw [_register_backend, henv], ?_⟩
    exact ⟨"The file \x27backends/",
      "_api.py\x27 does not exist. Create such a backend file or check the backend_name \x27" ++
        pyStr spec.backend ++ "\x27.", rfl⟩
  · intro henv
    refine ⟨by rw [_register_backend, henv], ?_⟩
    exact ⟨"There is no Backend defined in ",
      "_api. Create such a class and try again or check the backend_name \x27" ++
        pyStr spec.backend ++ "\x27.", rfl⟩
  · intro c1 c2 ms henv
    refine ⟨by rw [_register_backend, henv], ?_⟩
    exact ⟨"There is more than one Backend defined in ", "_api.", rfl⟩

/-- **C4** (counterexample): a per-turn wait in which the timeout elapses
with nothing ever buffered does *not* proceed without raising — it raises
an `IndexError` when draining the empty buffer. -/
theorem C4_timeout_counterexample :
    (deliverUntilSet ⟨10, 7, [], false⟩ []).2 = false ∧
    (wait_for_user_response ⟨10, 7, [], false⟩ [] []).result =
      .error (.indexError "list index out of range") :=
  ⟨rfl, rfl⟩

/-- **C4** (amended): when the bounded timeout elapses without an inbound
message, the call raises no timeout error; if the pending-response buffer
is nonempty it returns its first buffered text, and if the buffer is empty
it raises an `IndexError`. -/
theorem C4_timeout_swallowed (bot : ClemBot) (messages : List TurnMessage)
    (events : List Event) (hto : (deliverUntilSet bot events).2 = false) :
    (bot.user_messages = [] →
      (wait_for_user_response bot messages events).result =
        .error (.indexError "list index out of range")) ∧
    (∀ m rest, bot.user_messages = m :: rest →
      (wait_for_user_response bot messages events).result =
        .ok (m, { bot with user_messages := [], sync_event := false })) := by
  obtain ⟨hbot, _⟩ := deliverUntilSet_timeout bot events hto
  constructor
  · intro hbuf
    rw [wait_for_user_response]
    rw [hbot]
    simp only [hbuf]
  · intro m rest hbuf
    rw [wait_for_user_response]
    rw [hbot]
    simp only [hbuf]

/-- Witness for C4's amended theorem: a timed-out wait with one stale
buffered message returns that message. -/
theorem C4_timeout_swallowed_witness :
    (wait_for_user_response ⟨10, 7, ["stale"], false⟩ [] []).result =
      .ok ("stale", { user_id := 10, room_id := 7, user_messages := [], sync_event := false }) :=
  (C4_timeout_swallowed ⟨10, 7, ["stale"], false⟩ [] [] rfl).2 "stale" [] rfl

/-- **C6**: an event sent by the bot's own identity, or for a room other
than the bridge's, leaves the bridge state unchanged under both handlers
(`text_message` and `status`) — it never sets the signal, never appends to
the buffer, and so never unblocks a pending wait. -/
theorem C6_self_and_foreign_ignored (bot : ClemBot) (room userId : Nat) (msg : String)
    (hq : userId = bot.user_id ∨ room ≠ bot.room_id) :
    store_and_unblock bot room userId msg = bot ∧
    check_and_unblock bot room userId = bot ∧
    bot.deliver (Event.text room userId msg) = bot ∧
    bot.deliver (Event.status room userId) = bot := by
  have h1 : bot.deliver (Event.text room userId msg) = bot :=
    deliver_nonqual bot (Event.text room userId msg) hq
  have h2 : bot.deliver (Event.status room userId) = bot :=
    deliver_nonqual bot (Event.status room userId) hq
  exact ⟨h1, h2, h1, h2⟩

/-- Witness for C6: the bot's own message in its own room is ignored. -/
theorem C6_self_and_foreign_ignored_witness :
    store_and_unblock ⟨5, 1, [], false⟩ 1 5 "hello" = ⟨5, 1, [], false⟩ :=
  (C6_self_and_foreign_ignored ⟨5, 1, [], false⟩ 1 5 "hello" (Or.inl rfl)).1

/-- **C8**: the participant-join wait raises a `RuntimeError` when no
qualifying event arrives before the timeout; when a qualifying event does
arrive in time the call returns normally with the signal cleared. -/
theorem C8_participant_join (bot : ClemBot) (events es1 es2 : List Event) (q : Event)
    (hb : bot.sync_event = false) :
    ((∀ e ∈ events, NonQualifying bot e) →
      wait_for_participant bot events =
        .error (.runtimeError "no user joined the slurk room")) ∧
    ((∀ e ∈ es1, NonQualifying bot e) → q.room = bot.room_id → q.sender ≠ bot.user_id →
      ∃ bot1, wait_for_participant bot (es1 ++ q :: es2) = .ok bot1 ∧
        bot1.sync_event = false) := by
  constructor
  · intro hq
    rw [wait_for_participant, deliverUntilSet_all_nonqual bot events hq]
    simp [hb]
  · intro hq hr hu
    have h1 : deliverUntilSet bot (es1 ++ q :: es2) = deliverUntilSet bot (q :: es2) :=
      deliverUntilSet_append_nonqual bot es1 (q :: es2) hb hq
    have h2 : deliverUntilSet bot (q :: es2) = (bot.deliver q, true) := by
      rw [deliverUntilSet, if_neg (by simp [hb])]
      exact deliverUntilSet_of_set (bot.deliver q) es2 (deliver_qual_sets bot q hr hu)
    refine ⟨{ bot.deliver q with sync_event := false }, ?_, rfl⟩
    rw [wait_for_participant, h1, h2]
    simp

/-- Witness for C8: with no events the join wait raises. -/
theorem C8_participant_join_witness :
    wait_for_participant ⟨10, 7, [], false⟩ [] =
      .error (.runtimeError "no user joined the slurk room") :=
  (C8_participant_join ⟨10, 7, [], false⟩ [] [] [] (Event.status 7 3) rfl).1
    (by simp)

/-- **C9**: a per-turn wait that begins with an empty buffer and a clear
signal and is unblocked by inbound messages returns the first message
buffered after the wait began, and leaves the buffer empty and the signal
cleared. -/
theorem C9_first_inbound_returned (bot : ClemBot) (messages : List TurnMessage)
    (es1 es2 : List Event) (room uid : Nat) (msg : String)
    (hbuf : bot.user_messages = []) (hb : bot.sync_event = false)
    (hq : ∀ e ∈ es1, NonQualifying bot e)
    (hr : room = bot.room_id) (hu : uid ≠ bot.user_id) :
    ∃ bot1,
      (wait_for_user_response bot messages (es1 ++ Event.text room uid msg :: es2)).result =
        .ok (msg, bot1) ∧
      bot1.user_messages = [] ∧ bot1.sync_event = false := by
  have h1 : deliverUntilSet bot (es1 ++ Event.text room uid msg :: es2) =
      deliverUntilSet bot (Event.text room uid msg :: es2) :=
    deliverUntilSet_append_nonqual bot es1 _ hb hq
  have hdel : bot.deliver (Event.text room uid msg) =
      { bot with user_messages := [msg], sync_event := true } := by
    simp [ClemBot.deliver, store_and_unblock, hr, hu, hbuf]
  have h2 : deliverUntilSet bot (Event.text room uid msg :: es2) =
      ({ bot with user_messages := [msg], sync_event := true }, true) := by
    rw [deliverUntilSet, if_neg (by simp [hb]), hdel]
    exact deliverUntilSet_of_set _ es2 rfl
  refine ⟨{ bot with user_messages := [], sync_event := false }, ?_, rfl, rfl⟩
  rw [wait_for_user_response, h1, h2]

/-- Witness for C9: one qualifying text message unblocks and is returned. -/
theorem C9_first_inbound_returned_witness :
    ∃ bot1,
      (wait_for_user_response ⟨10, 7, [], false⟩ []
          ([] ++ Event.text 7 3 "hi there" :: [])).result = .ok ("hi there", bot1) ∧
      bot1.user_messages = [] ∧ bot1.sync_event = false :=
  C9_first_inbound_returned ⟨10, 7, [], false⟩ [] [] [] 7 3 "hi there"
    rfl rfl (by simp) rfl (by decide)

/-- **C10**: `from_dict` on a mapping that contains a `model_name` pops the
four recognized keys out of the caller's dict object in place (every other
key keeps its value) and installs that very object — the same reference,
not a copy — as the new spec's options, so mutation of the spec's options
and of the caller's mapping are views of one heap cell. -/
theorem C10_from_dict_in_place_aliasing (r : Nat) (h : Heap) (v : PyVal)
    (hv : dlookup (h.get r) "model_name" = some v) (hvn : v ≠ PyVal.pynone) :
    ∃ spec h1, ModelSpec.from_dict r h = .ok (spec, h1) ∧
      spec.optsRef = r ∧
      h1.get r = dremove (dremove (dremove (dremove (h.get r) "model_name") "backend")
        "model_id") "temperature" ∧
      (∀ k, k ≠ "model_name" → k ≠ "backend" → k ≠ "model_id" → k ≠ "temperature" →
        dlookup (h1.get r) k = dlookup (h.get r) k) ∧
      h1.get spec.optsRef = h1.get r ∧
      spec.model_name = v := by
  simp only [ModelSpec.from_dict, hv, ModelSpec.from_name, hvn, if_neg, Heap.alloc,
    if_false]
  refine ⟨_, _, rfl, rfl, ?_, ?_, rfl, rfl⟩
  · simp [Heap.get, Heap.set]
  · intro k h1k h2k h3k h4k
    simp only [Heap.get, Heap.set, if_pos]
    rw [dlookup_dremove _ _ _ h4k, dlookup_dremove _ _ _ h3k,
      dlookup_dremove _ _ _ h2k, dlookup_dremove _ _ _ h1k]

/-- Witness for C10 at a concrete mapping with one unrecognized key. -/
theorem C10_from_dict_in_place_aliasing_witness :
    ∃ spec h1,
      ModelSpec.from_dict 0
        ⟨fun _ => [("model_name", PyVal.str "m"), ("backend", PyVal.str "b"),
          ("x", PyVal.num 7)], 1⟩ = .ok (spec, h1) ∧
      spec.optsRef = 0 ∧
      h1.get 0 = dremove (dremove (dremove (dremove
        ((⟨fun _ => [("model_name", PyVal.str "m"), ("backend", PyVal.str "b"),
          ("x", PyVal.num 7)], 1⟩ : Heap).get 0) "model_name") "backend")
        "model_id") "temperature" ∧
      (∀ k, k ≠ "model_name" → k ≠ "backend" → k ≠ "model_id" → k ≠ "temperature" →
        dlookup (h1.get 0) k =
          dlookup ((⟨fun _ => [("model_name", PyVal.str "m"), ("backend", PyVal.str "b"),
            ("x", PyVal.num 7)], 1⟩ : Heap).get 0) k) ∧
      h1.get spec.optsRef = h1.get 0 ∧
      spec.model_name = PyVal.str "m" :=
  C10_from_dict_in_place_aliasing 0
    ⟨fun _ => [("model_name", PyVal.str "m"), ("backend", PyVal.str "b"),
      ("x", PyVal.num 7)], 1⟩
    (PyVal.str "m") rfl (by decide)
